import Mathlib

/-!
Verification of the tariff-calculator billing engine.

This file gives a shallow embedding, in Lean 4, of the core calculation
engine of the tariff-calculator repository:

  * `src/core/services/calc.py` — `_safe_eval`, `_parse_rate`,
    `_select_rate_value`, `calculate_bill`
  * `src/core/services/timeband.py` — `_in_date_ranges`, `assign_band`
  * `src/core/services/checksum.py` — `compute_checksum`

and proves theorems about the embedded definitions.

Modelling conventions:

  * Python machine floats are idealised as exact rationals `ℚ`; `round` is
    round-half-to-even (Python's rounding on exact values).
  * Database access is replaced by explicit arguments: `calculate_bill`
    receives the (optional) tariff row and the ordered list of readings the
    SQL query would return.
  * JSON dictionary fields are `Option`-typed; `dict.get` defaults are
    applied exactly where the source applies them.
  * Date fields that the source obtains through `datetime.strptime` inside a
    `try`/`except` are modelled as `Option Date`, where `none` covers both a
    missing field and an unparseable string (the source treats the two
    identically: the exception is caught and the range/season is skipped).
-/

/-! ## String utilities (Python code-point string comparison) -/

/-- Python-style strict lexicographic comparison of character lists by code
point, as used for the `start_time <= time_str < end_time` check in
`assign_band`. -/
def charsLt : List Char → List Char → Bool
  | [], [] => false
  | [], _ :: _ => true
  | _ :: _, [] => false
  | a :: as, b :: bs => if a < b then true else if b < a then false else charsLt as bs

/-- Python-style non-strict lexicographic comparison of character lists. -/
def charsLe : List Char → List Char → Bool
  | [], _ => true
  | _ :: _, [] => false
  | a :: as, b :: bs => if a < b then true else if b < a then false else charsLe as bs

/-- Python `s < t` on strings. -/
def pyStrLt (s t : String) : Bool := charsLt s.data t.data

/-- Python `s <= t` on strings. -/
def pyStrLe (s t : String) : Bool := charsLe s.data t.data

/-- Python `s.endswith(t)`: `t.data` is a suffix of `s.data`. -/
def strEndsWith (s t : String) : Bool := t.data.isSuffixOf s.data

/-- Python `s.startswith(t)`: `t.data` is a prefix of `s.data`. -/
def strStartsWith (s t : String) : Bool := t.data.isPrefixOf s.data

/-- Python `s[n:]`. -/
def strDrop (s : String) (n : Nat) : String := ⟨s.data.drop n⟩

/-- Zero-padded two-digit rendering, as produced by `strftime` fields
`%H`, `%M`, `%m`, `%d`. -/
def pad2 (n : Nat) : String := if n < 10 then "0" ++ toString n else toString n

/-- Zero-padded four-digit rendering of a year (`strftime` `%Y`). -/
def pad4 (n : Nat) : String :=
  if n < 10 then "000" ++ toString n
  else if n < 100 then "00" ++ toString n
  else if n < 1000 then "0" ++ toString n
  else toString n

/-- Python `s.lower()` restricted to its ASCII action (`Char.toLower`
lowercases exactly `A`-`Z`); the tariff vocabulary — unit strings, band
ids, weekday names, `applies_to` tags — is ASCII. -/
def strLower (s : String) : String := ⟨s.data.map Char.toLower⟩

/-- Python `s.strip()` over ASCII whitespace. -/
def strTrim (s : String) : String :=
  ⟨((s.data.dropWhile Char.isWhitespace).reverse.dropWhile Char.isWhitespace).reverse⟩

/-! ## Dates and timestamps -/

/-- A calendar date, as carried by Python `datetime.date`. -/
structure Date where
  year : Nat
  month : Nat
  day : Nat
deriving DecidableEq, Repr

/-- Gregorian leap-year rule, as in Python's `calendar` module. -/
def isLeapYear (y : Nat) : Bool := (y % 4 == 0 && y % 100 != 0) || y % 400 == 0

/-- Number of days in a month, `calendar.monthrange(y, m)[1]` (defined here
for the valid months `1..12`; other inputs raise in Python and are never
produced by a `datetime.date`). -/
def daysInMonth (y m : Nat) : Nat :=
  if m == 2 then (if isLeapYear y then 29 else 28)
  else if m == 4 || m == 6 || m == 9 || m == 11 then 30
  else 31

/-- Days in the months strictly before month `m` of year `y`. -/
def daysBeforeMonth (y m : Nat) : Nat :=
  (List.range (m - 1)).foldl (fun acc i => acc + daysInMonth y (i + 1)) 0

/-- Proleptic-Gregorian ordinal of a date, matching Python
`date.toordinal()` (day 1 is 0001-01-01). -/
def Date.toOrdinal (d : Date) : Int :=
  let y : Int := (d.year : Int) - 1
  365 * y + y / 4 - y / 100 + y / 400 + (daysBeforeMonth d.year d.month : Int) + (d.day : Int)

/-- Python date ordering, `d1 <= d2`. -/
def Date.le (a b : Date) : Bool :=
  a.year < b.year ||
    (a.year == b.year && (a.month < b.month || (a.month == b.month && a.day ≤ b.day)))

/-- Python date ordering, `d1 < d2`. -/
def Date.lt (a b : Date) : Bool :=
  a.year < b.year ||
    (a.year == b.year && (a.month < b.month || (a.month == b.month && a.day < b.day)))

/-- Lowercase three-letter weekday abbreviation,
`ts.strftime("%a").lower()[:3]` (Monday is weekday 0, as in Python). -/
def Date.weekdayAbbr (d : Date) : String :=
  match ((d.toOrdinal - 1) % 7).toNat with
  | 0 => "mon"
  | 1 => "tue"
  | 2 => "wed"
  | 3 => "thu"
  | 4 => "fri"
  | 5 => "sat"
  | _ => "sun"

/-- Python `date.strftime("%Y-%m-%d")`. -/
def Date.toIso (d : Date) : String := pad4 d.year ++ "-" ++ pad2 d.month ++ "-" ++ pad2 d.day

/-- A wall-clock timestamp, as carried by Python `datetime.datetime`
(seconds and finer do not influence any embedded function and are omitted:
`strftime("%H:%M")` uses only hour and minute). -/
structure DateTime where
  date : Date
  hour : Nat
  minute : Nat
deriving DecidableEq, Repr

/-- Python `ts.strftime("%H:%M")`. -/
def DateTime.timeStr (t : DateTime) : String := pad2 t.hour ++ ":" ++ pad2 t.minute

/-! ## Expression evaluator (`_safe_eval` in `calc.py`)

The evaluator works on Python's `ast` expression trees. The inductive
`PyExpr` covers the node kinds `_safe_eval._eval` dispatches on, plus the
node kinds it structurally rejects (`attribute`, `subscript`, `lambda`,
`comprehension`, and a catch-all `otherNode` for everything else, which all
reach the final `raise ValueError("Unsupported expression")`). Operator
kinds outside the dispatched set (`//`, bitwise operators, `not`, `~`,
`is`, `in`, …) are covered by the `otherOp` / `otherUnary` / `otherCmp`
constructors: for these the source evaluates the already-visited operands
and then falls through to a `raise`. -/

/-- Binary operators of `ast.BinOp` handled by `_eval`; `otherOp` stands
for any other `ast` binary operator (for which `_eval` evaluates both
operands and then raises `Unsupported expression`). -/
inductive PyBinOp where
  | add | sub | mult | div | mod | pow | otherOp
deriving DecidableEq, Repr

/-- Unary operators of `ast.UnaryOp`; `otherUnary` covers `Not`/`Invert`
(operand evaluated, then `Unsupported expression` raised). -/
inductive PyUnOp where
  | uadd | usub | otherUnary
deriving DecidableEq, Repr

/-- Comparison operators of `ast.Compare`; `otherCmp` covers
`Is`/`IsNot`/`In`/`NotIn`, for which the source raises
`Comparison operator not allowed` after evaluating the comparator. -/
inductive PyCmpOp where
  | lt | le | gt | ge | eq | ne | otherCmp
deriving DecidableEq, Repr

/-- Boolean operators of `ast.BoolOp`. -/
inductive PyBoolOp where
  | and | or
deriving DecidableEq, Repr

/-- Python runtime values that can flow through `_eval`: numbers
(idealised as `ℚ`), booleans, strings, `None`, the whitelisted functions
(identified by name), and the `math` module object. -/
inductive Value where
  | num (q : ℚ)
  | bool (b : Bool)
  | str (s : String)
  | none
  | func (name : String)
  | module
deriving DecidableEq, Repr

/-- Python expression AST, mirroring the nodes `_safe_eval` dispatches on.
`const` covers both `ast.Num` and `ast.Constant`. -/
inductive PyExpr where
  | const (v : Value)
  | binop (op : PyBinOp) (l r : PyExpr)
  | unaryop (op : PyUnOp) (e : PyExpr)
  | name (id : String)
  | call (f : PyExpr) (args : List PyExpr) (kwargs : List (String × PyExpr))
  | ifexp (test body orelse : PyExpr)
  | compare (l : PyExpr) (rest : List (PyCmpOp × PyExpr))
  | boolop (op : PyBoolOp) (values : List PyExpr)
  | attrAccess (obj : PyExpr) (attrName : String)
  | subscript (obj index : PyExpr)
  | lambda
  | comprehension
  | otherNode (kind : String)
deriving Repr

/-- Python truthiness (`if cond`): zero numbers, `False`, the empty string
and `None` are falsy; functions and modules are truthy. -/
def truthy : Value → Bool
  | .num q => !(q == 0)
  | .bool b => b
  | .str s => !(s == "")
  | .none => false
  | .func _ => true
  | .module => true

/-- Numeric view of a value: Python arithmetic and numeric comparison
accept numbers and booleans (`True == 1`, `False == 0`). -/
def asNum : Value → Option ℚ
  | .num q => some q
  | .bool b => some (if b then 1 else 0)
  | _ => Option.none

/-- Callable members of CPython's `math` module, as collected by the
`dir(math)` loop in `_safe_eval` (constants such as `pi` are skipped by
the `callable` test). -/
def mathFuncNames : List String :=
  ["acos", "acosh", "asin", "asinh", "atan", "atan2", "atanh", "cbrt",
   "ceil", "comb", "copysign", "cos", "cosh", "degrees", "dist", "erf",
   "erfc", "exp", "exp2", "expm1", "fabs", "factorial", "floor", "fmod",
   "frexp", "fsum", "gamma", "gcd", "hypot", "isclose", "isfinite",
   "isinf", "isnan", "isqrt", "lcm", "ldexp", "lgamma", "log", "log10",
   "log1p", "log2", "modf", "nextafter", "perm", "pow", "prod", "radians",
   "remainder", "sin", "sinh", "sqrt", "tan", "tanh", "trunc", "ulp"]

/-- The keys of the `allowed_funcs` dictionary built by `_safe_eval`:
`min`, `max`, `round`, then every callable member of `math`. -/
def allowedFuncNames : List String := ["min", "max", "round"] ++ mathFuncNames

/-- The variable environment passed to `_safe_eval` (a Python dict,
modelled as an association list with the first binding winning). -/
abbrev Env := List (String × Value)

/-- Name resolution in `_eval`: the variable dict first, then
`allowed_funcs`, then the literal name `math`; anything else raises
`Use of name ... not allowed`. -/
def evalName (env : Env) (id : String) : Except String Value :=
  match env.lookup id with
  | some v => .ok v
  | Option.none =>
    if allowedFuncNames.contains id then .ok (.func id)
    else if id == "math" then .ok .module
    else .error ("Use of name " ++ id ++ " not allowed")

/-- Round half to even, Python's rounding mode for `round`. -/
def roundHalfEven (q : ℚ) : ℤ :=
  let f := ⌊q⌋
  let r := q - f
  if r < 1 / 2 then f else if 1 / 2 < r then f + 1 else if f % 2 = 0 then f else f + 1

/-- Powers of ten with an integer exponent. -/
def pow10 (k : ℤ) : ℚ := if 0 ≤ k then ((10 : ℚ) ^ k.toNat) else ((10 : ℚ) ^ (-k).toNat)⁻¹

/-- Python `round(q, n)` on exact values: round half to even at `n`
decimal digits. -/
def roundTo (q : ℚ) (n : ℤ) : ℚ := (roundHalfEven (q * pow10 n) : ℚ) / pow10 n

/-- Python `round(x, 4)`, the rounding applied by `calculate_bill`. -/
def round4 (q : ℚ) : ℚ := roundTo q 4

/-- Python float truncation toward zero, `math.trunc`. -/
def ratTrunc (q : ℚ) : ℤ := q.num / (q.den : ℤ)

/-- Application of a whitelisted function to evaluated arguments. `min`,
`max`, `round`, `floor`, `ceil`, `trunc` and `fabs` are given their exact
Python semantics on numbers; the remaining `math` callables compute
irrational values in general and are modelled as evaluation failures
(no claim in this development depends on their numeric results). Keyword
arguments are likewise not modelled (the embedded tariff expressions pass
none). -/
def applyFunc (f : String) (args : List Value) (kwargs : List (String × Value)) :
    Except String Value :=
  if !kwargs.isEmpty then .error "keyword arguments not modelled" else
  match f, args with
  | "min", _ =>
    match args.mapM asNum with
    | some (q :: qs) =>
      if qs.isEmpty then .error "min of a single number is a TypeError"
      else .ok (.num (qs.foldl min q))
    | _ => .error "min: bad arguments"
  | "max", _ =>
    match args.mapM asNum with
    | some (q :: qs) =>
      if qs.isEmpty then .error "max of a single number is a TypeError"
      else .ok (.num (qs.foldl max q))
    | _ => .error "max: bad arguments"
  | "round", [v] =>
    match asNum v with
    | some q => .ok (.num (roundHalfEven q : ℤ))
    | Option.none => .error "round: bad argument"
  | "round", [v, n] =>
    match asNum v, asNum n with
    | some q, some d =>
      if d.den = 1 then .ok (.num (roundTo q d.num)) else .error "round: ndigits must be an integer"
    | _, _ => .error "round: bad arguments"
  | "floor", [v] =>
    match asNum v with
    | some q => .ok (.num (⌊q⌋ : ℤ))
    | Option.none => .error "floor: bad argument"
  | "ceil", [v] =>
    match asNum v with
    | some q => .ok (.num (⌈q⌉ : ℤ))
    | Option.none => .error "ceil: bad argument"
  | "trunc", [v] =>
    match asNum v with
    | some q => .ok (.num (ratTrunc q : ℤ))
    | Option.none => .error "trunc: bad argument"
  | "fabs", [v] =>
    match asNum v with
    | some q => .ok (.num |q|)
    | Option.none => .error "fabs: bad argument"
  | f, _ =>
    if mathFuncNames.contains f then .error ("math function " ++ f ++ " not modelled exactly")
    else .error "wrong arguments"

/-- Python float modulo: the result takes the sign of the divisor,
`x - y * floor(x / y)`. -/
def pyMod (x y : ℚ) : ℚ := x - y * ⌊x / y⌋

/-- Binary operator semantics of `_eval` on already-evaluated operands.
Numbers and booleans are accepted; division and modulo by zero raise, as
does `0 ** negative`; a non-integral exponent generally yields an
irrational value and is modelled as a failure; `otherOp` reproduces the
fall-through `raise ValueError("Unsupported expression")`. (Python string
concatenation and repetition are not modelled; the tariff vocabulary never
exercises them.) -/
def evalBinOp (op : PyBinOp) (a b : Value) : Except String Value :=
  match op with
  | .otherOp => .error "Unsupported expression"
  | _ =>
    match asNum a, asNum b with
    | some x, some y =>
      match op with
      | .add => .ok (.num (x + y))
      | .sub => .ok (.num (x - y))
      | .mult => .ok (.num (x * y))
      | .div => if y = 0 then .error "division by zero" else .ok (.num (x / y))
      | .mod => if y = 0 then .error "modulo by zero" else .ok (.num (pyMod x y))
      | .pow =>
        if y.den = 1 then
          if x = 0 ∧ y.num < 0 then .error "zero to a negative power"
          else .ok (.num (x ^ y.num))
        else .error "non-integer exponent not modelled"
      | .otherOp => .error "Unsupported expression"
    | _, _ => .error "unsupported operand types"

/-- Unary operator semantics of `_eval` on the evaluated operand: `+` and
`-` on numbers and booleans; `otherUnary` reproduces the fall-through
`raise` after the operand has been evaluated. -/
def evalUnOp (op : PyUnOp) (a : Value) : Except String Value :=
  match op with
  | .uadd =>
    match asNum a with
    | some q => .ok (.num q)
    | Option.none => .error "bad operand type for unary +"
  | .usub =>
    match asNum a with
    | some q => .ok (.num (-q))
    | Option.none => .error "bad operand type for unary -"
  | .otherUnary => .error "Unsupported expression"

/-- Python `==` on the modelled values: numeric equality across numbers
and booleans, string equality, `None == None`, identity on functions and
the module object, `False` across distinct kinds. -/
def valueEq (a b : Value) : Bool :=
  match asNum a, asNum b with
  | some x, some y => x == y
  | _, _ =>
    match a, b with
    | .str s, .str t => s == t
    | .none, .none => true
    | .func f, .func g => f == g
    | .module, .module => true
    | _, _ => false

/-- One comparison step of `ast.Compare`: order comparisons on two numbers
or two strings, equality on anything, a `TypeError` otherwise; `otherCmp`
reproduces `raise ValueError("Comparison operator ... not allowed")`. -/
def evalCmp (op : PyCmpOp) (a b : Value) : Except String Bool :=
  match op with
  | .otherCmp => .error "Comparison operator not allowed"
  | .eq => .ok (valueEq a b)
  | .ne => .ok (!valueEq a b)
  | _ =>
    match asNum a, asNum b with
    | some x, some y =>
      .ok (match op with
        | .lt => x < y
        | .le => x ≤ y
        | .gt => y < x
        | .ge => y ≤ x
        | _ => false)
    | _, _ =>
      match a, b with
      | .str s, .str t =>
        .ok (match op with
          | .lt => pyStrLt s t
          | .le => pyStrLe s t
          | .gt => pyStrLt t s
          | .ge => pyStrLe t s
          | _ => false)
      | _, _ => .error "order comparison not supported between these types"

mutual

/-- Embedding of the recursive `_eval` of `_safe_eval`. Notable points
taken directly from the source: `Call` evaluates the function expression,
then every positional argument, then every keyword argument, eagerly;
`IfExp` evaluates only the taken branch; `Compare` evaluates **all**
comparators left to right, collecting each pair's truth into a list, and
returns `all(results)` (no short-circuit between pairs); `BoolOp`
evaluates all operands and applies `all`/`any`; the node kinds without a
dispatch case raise `Unsupported expression` without visiting children. -/
def evalPyExpr : PyExpr → Env → Except String Value
  | .const v, _ => .ok v
  | .binop op l r, env => do
    let a ← evalPyExpr l env
    let b ← evalPyExpr r env
    evalBinOp op a b
  | .unaryop op e, env => do
    let a ← evalPyExpr e env
    evalUnOp op a
  | .name id, env => evalName env id
  | .call f args kwargs, env => do
    let fv ← evalPyExpr f env
    let argVals ← evalPyList args env
    let kwVals ← evalPyKwargs kwargs env
    match fv with
    | .func fname => applyFunc fname argVals kwVals
    | _ => .error "object is not callable"
  | .ifexp t b o, env => do
    let c ← evalPyExpr t env
    if truthy c then evalPyExpr b env else evalPyExpr o env
  | .compare l rest, env => do
    let v ← evalPyExpr l env
    let bs ← evalPyPairs v rest env
    .ok (.bool (bs.all id))
  | .boolop op vs, env => do
    let vals ← evalPyList vs env
    match op with
    | .and => .ok (.bool (vals.all truthy))
    | .or => .ok (.bool (vals.any truthy))
  | .attrAccess _ _, _ => .error "Unsupported expression"
  | .subscript _ _, _ => .error "Unsupported expression"
  | .lambda, _ => .error "Unsupported expression"
  | .comprehension, _ => .error "Unsupported expression"
  | .otherNode k, _ => .error ("Unsupported expression: " ++ k)

/-- Eager left-to-right evaluation of a list of expressions (the list
comprehension over `node.args` / `node.values`). -/
def evalPyList : List PyExpr → Env → Except String (List Value)
  | [], _ => .ok []
  | e :: es, env => do
    let v ← evalPyExpr e env
    let vs ← evalPyList es env
    .ok (v :: vs)

/-- Eager evaluation of keyword arguments (the dict comprehension over
`node.keywords`). -/
def evalPyKwargs : List (String × PyExpr) → Env → Except String (List (String × Value))
  | [], _ => .ok []
  | (k, e) :: es, env => do
    let v ← evalPyExpr e env
    let vs ← evalPyKwargs es env
    .ok ((k, v) :: vs)

/-- The comparator loop of the `ast.Compare` case: evaluate the next
comparator, compare it with the running left value, record the Boolean,
and continue with the comparator as the new left value. -/
def evalPyPairs : Value → List (PyCmpOp × PyExpr) → Env → Except String (List Bool)
  | _, [], _ => .ok []
  | left, (op, e) :: rest, env => do
    let right ← evalPyExpr e env
    let b ← evalCmp op left right
    let bs ← evalPyPairs right rest env
    .ok (b :: bs)

end

/-- The `float(...)` coercion applied by `_safe_eval` to the result of
`_eval`: numbers pass through, booleans become 0 or 1, everything else
raises (`float` of a numeric string is not modelled; the tariff
vocabulary never produces one where it matters to a claim). -/
def toFloat : Value → Except String ℚ
  | .num q => .ok q
  | .bool b => .ok (if b then 1 else 0)
  | _ => .error "could not convert value to float"

/-- Embedding of `_safe_eval(expr, variables)`: evaluate the parsed
expression tree and coerce the result to a float. (The `ast.parse` step is
upstream of this embedding, which starts from the tree; a string that
fails to parse raises, which in `calculate_bill` is caught by the same
`except` as an evaluation failure.) -/
def _safe_eval (e : PyExpr) (env : Env) : Except String ℚ := do
  let v ← evalPyExpr e env
  toFloat v

/-! ## Time-band classifier (`timeband.py`) -/

/-- One entry of a band's `date_ranges`. A `none` bound stands for a field
that is missing or fails `strptime` parsing; the source skips the range in
either case (the exception is caught). -/
structure DateRange where
  lo : Option Date
  hi : Option Date
deriving DecidableEq, Repr

/-- One entry of a band's `times` list; the `HH:MM` endpoint strings are
kept as strings, exactly as the source compares them. -/
structure TimeSpan where
  lo : Option String
  hi : Option String
deriving DecidableEq, Repr

/-- One entry of the canonical tariff's `time_bands`. `id` is `none` when
the JSON object has no `id` key (the source then falls back to
`"off_peak"`); `date_ranges` is `none` when the key is absent. -/
structure TimeBand where
  id : Option String
  days : List String
  times : List TimeSpan
  date_ranges : Option (List DateRange)
deriving DecidableEq, Repr

/-- Embedding of `_in_date_ranges(ts_date, date_ranges)` from
`timeband.py`: true when some range has both bounds present (and parseable)
and `frm <= ts_date <= to`, inclusive. -/
def _in_date_ranges (tsDate : Date) (ranges : List DateRange) : Bool :=
  ranges.any fun r =>
    match r.lo, r.hi with
    | some lo, some hi => lo.le tsDate && tsDate.le hi
    | _, _ => false

/-- The per-span check of `assign_band`: both endpoints present and
`start_time <= time_str < end_time` under Python string comparison. -/
def spanMatch (timeStr : String) (span : TimeSpan) : Bool :=
  match span.lo, span.hi with
  | some lo, some hi => pyStrLe lo timeStr && pyStrLt timeStr hi
  | _, _ => false

/-- The date-range gate of the band loop: the source skips the band when
`date_ranges` is truthy (present and non-empty) and `_in_date_ranges`
fails; this helper is the negation of that skip condition. -/
def bandDateOk (tsDate : Date) (band : TimeBand) : Bool :=
  match band.date_ranges with
  | Option.none => true
  | some l => l.isEmpty || _in_date_ranges tsDate l

/-- The day-of-week gate of the band loop: the lowercased `days` list
contains `"all"` or the weekday abbreviation. -/
def bandDaysOk (dayAbbr : String) (band : TimeBand) : Bool :=
  (band.days.map strLower).contains "all" || (band.days.map strLower).contains dayAbbr

/-- The band loop of `assign_band`, in declaration order. A band is skipped
when its `date_ranges` is present, non-empty (Python truthiness) and does
not contain the date; or when its lowercased `days` contains neither
`"all"` nor the weekday abbreviation; or when no `times` span matches;
the first span match returns `band.get("id", "off_peak")`. -/
def assignBandGo (tsDate : Date) (dayAbbr timeStr : String) : List TimeBand → String
  | [] => "off_peak"
  | band :: rest =>
    if !bandDateOk tsDate band then
      assignBandGo tsDate dayAbbr timeStr rest
    else if !bandDaysOk dayAbbr band then
      assignBandGo tsDate dayAbbr timeStr rest
    else
      match band.times.find? (spanMatch timeStr) with
      | some _ => band.id.getD "off_peak"
      | none => assignBandGo tsDate dayAbbr timeStr rest

/-- One tier of a component's `rate_schedule`: optional `from`/`to` bounds
and a `value` (`tier.get('value', 0.0)` defaults a missing value to 0). -/
structure Tier where
  lo : Option ℚ
  hi : Option ℚ
  value : Option ℚ
deriving DecidableEq, Repr

/-- A component's optional `season` object. Each bound is the result of
`datetime.strptime(season.get(...), "%Y-%m-%d")`: `none` covers a missing
or unparseable field (the source catches the exception and treats the
season as always applicable). -/
structure Season where
  lo : Option Date
  hi : Option Date
deriving DecidableEq, Repr

/-- One entry of the canonical tariff's `components`. `rate_schedule`
models `comp.get('rate_schedule', [])` (missing means `[]`);
`loss_factor` is `none` when the key is absent or the value is `None` or
`''` (the source's `not in (None, '')` test); `calculation` holds the
parsed expression AST, `none` when the key is absent or the string is empty
(`if not expr: continue`) — an unparseable string raises inside
`_safe_eval` and is skipped by the same `except` as an evaluation failure,
and is covered by the evaluation-error case. -/
structure Component where
  id : Option String
  unit : Option String
  rate_schedule : List Tier
  applies_to : List String
  season : Option Season
  loss_factor : Option ℚ
  calculation : Option PyExpr
deriving Repr

/-- The canonical tariff JSON document: `components` and `time_bands`
(each defaulted to `[]` by `canonical.get(..., [])` when absent, which the
embedding represents by the empty list). -/
structure Canonical where
  components : List Component
  time_bands : List TimeBand
deriving Repr

/-- Embedding of `assign_band(ts, canonical)` from `timeband.py`. -/
def assign_band (ts : DateTime) (canonical : Canonical) : String :=
  assignBandGo ts.date ts.date.weekdayAbbr ts.timeStr canonical.time_bands

/-! ## Rate resolver (`_parse_rate`, `_select_rate_value` in `calc.py`) -/

/-- The `unit.strip().lower()` normalisation at the top of `_parse_rate`. -/
def unitNorm (u : String) : String := strLower (strTrim u)

/-- The suffix dispatch of `_parse_rate`, applied after the optional
cents-to-dollars conversion: `/day` and `/kwh` rates pass through, `/mth`
and `/month` rates are prorated by days over the days of the billing-start
month, `/year` rates (the `/meter/year` test is subsumed by the `/year`
test it precedes) by days over 365; anything else passes through. -/
def ratePostCents (unit : String) (rate : ℚ) (days : ℤ) (billingStart : Date) : ℚ :=
  if strEndsWith unit "/day" then rate
  else if strEndsWith unit "/kwh" then rate
  else if strEndsWith unit "/mth" || strEndsWith unit "/month" then
    rate * ((days : ℚ) / (daysInMonth billingStart.year billingStart.month : ℚ))
  else if strEndsWith unit "/meter/year" || strEndsWith unit "/year" then
    rate * ((days : ℚ) / 365)
  else rate

/-- Embedding of `_parse_rate(unit, value, days, billing_start)`: a `None`
unit returns the value; otherwise the unit is stripped and lowercased, a
`c/` prefix divides the value by 100 and is dropped, and the suffix rules
of `ratePostCents` apply. -/
def _parse_rate (unit : Option String) (value : ℚ) (days : ℤ) (billingStart : Date) : ℚ :=
  match unit with
  | Option.none => value
  | some u0 =>
    let u := unitNorm u0
    if strStartsWith u "c/" then ratePostCents (strDrop u 2) (value / 100) days billingStart
    else ratePostCents u value days billingStart

/-- A tier's `float(tier.get('value', 0.0))`. -/
def tierValue (t : Tier) : ℚ := t.value.getD 0

/-- The tier loop of `_select_rate_value`: the first tier whose bounds
admit the usage, with the source's case split — no `from`: match when
`to` is absent or `usage <= to` (upper bound inclusive); `from` only:
match when `usage >= from`; both bounds: match when
`from <= usage < to`. -/
def findApplicable (usage : ℚ) : List Tier → Option ℚ
  | [] => Option.none
  | t :: rest =>
    match t.lo, t.hi with
    | Option.none, Option.none => some (tierValue t)
    | Option.none, some hi =>
      if usage ≤ hi then some (tierValue t) else findApplicable usage rest
    | some lo, Option.none =>
      if lo ≤ usage then some (tierValue t) else findApplicable usage rest
    | some lo, some hi =>
      if lo ≤ usage ∧ usage < hi then some (tierValue t) else findApplicable usage rest

/-- Embedding of `_select_rate_value(rate_schedule, usage)`: empty
schedule returns 0.0, a single tier returns its value unconditionally,
otherwise the first applicable tier wins and the last tier's value is the
fallback. -/
def _select_rate_value (rate_schedule : List Tier) (usage : ℚ) : ℚ :=
  match rate_schedule with
  | [] => 0
  | [t] => tierValue t
  | _ =>
    match findApplicable usage rate_schedule with
    | some v => v
    | Option.none => (rate_schedule.getLast?.map tierValue).getD 0

/-! ## Billing orchestrator (`calculate_bill` in `calc.py`) -/

/-- A meter reading row as consumed by the aggregation loop: timestamp and
`float(r.kwh_used)`. `calculate_bill` receives the rows its SQL query
would return (the readings of the customer with
`start <= timestamp < end`, ordered by timestamp ascending). -/
structure Reading where
  timestamp : DateTime
  kwh_used : ℚ
deriving DecidableEq, Repr

/-- The usage accumulators of the aggregation loop. -/
structure UsageAgg where
  total : ℚ
  peak : ℚ
  offPeak : ℚ
  shoulder : ℚ
deriving DecidableEq, Repr

/-- Band ids accumulated into `peak_usage`. -/
def peakAliases : List String := ["peak", "usage_peak", "retail_peak", "network_peak"]

/-- Band ids accumulated into `shoulder_usage`. -/
def shoulderAliases : List String :=
  ["shoulder", "usage_shoulder", "retail_shoulder", "network_shoulder"]

/-- The reading loop of `calculate_bill`: every reading adds to
`total_usage`, and to exactly one of `peak_usage`, `shoulder_usage` or
`off_peak_usage` according to the lowercased band id assigned by
`assign_band` (anything unrecognised falls into off-peak). -/
def usageAggOf (canonical : Canonical) (readings : List Reading) : UsageAgg :=
  readings.foldl
    (fun acc r =>
      let b := strLower (assign_band r.timestamp canonical)
      { total := acc.total + r.kwh_used
        peak := if peakAliases.contains b then acc.peak + r.kwh_used else acc.peak
        offPeak :=
          if !peakAliases.contains b && !shoulderAliases.contains b then
            acc.offPeak + r.kwh_used
          else acc.offPeak
        shoulder :=
          if !peakAliases.contains b && shoulderAliases.contains b then
            acc.shoulder + r.kwh_used
          else acc.shoulder })
    ⟨0, 0, 0, 0⟩

/-- Demand placeholder of the source: `max_kva: float = 0.0` (no kVA data
is computed by `calculate_bill`). -/
def max_kva : ℚ := 0

/-- Demand placeholder of the source: `incentive_kva: float = 0.0`. -/
def incentive_kva : ℚ := 0

/-- Embedding of `days = max(1, (end.date() - start.date()).days)`. -/
def daysOf (start end_ : DateTime) : ℤ := max 1 (end_.date.toOrdinal - start.date.toOrdinal)

/-- The `base_vars` dictionary shared by all components. -/
def baseVarsOf (canonical : Canonical) (readings : List Reading) (start end_ : DateTime) : Env :=
  let agg := usageAggOf canonical readings
  [("total_usage", .num agg.total),
   ("peak_usage", .num agg.peak),
   ("off_peak_usage", .num agg.offPeak),
   ("shoulder_usage", .num agg.shoulder),
   ("network_peak_usage", .num agg.peak),
   ("network_off_peak_usage", .num agg.offPeak),
   ("network_total_usage", .num agg.total),
   ("max_kva", .num max_kva),
   ("incentive_kva", .num incentive_kva),
   ("days", .num (daysOf start end_ : ℚ)),
   ("billing_period_start", .str start.date.toIso),
   ("billing_period_end", .str end_.date.toIso)]

/-- The `applies_to` dispatch choosing the usage quantity used for tier
selection (`usage_for_tier` starts at 0.0 and the first matching tag
category wins). -/
def usageForTier (applies : List String) (agg : UsageAgg) : ℚ :=
  if applies.contains "usage_peak" || applies.contains "network_peak" then agg.peak
  else if applies.contains "usage_offpeak" || applies.contains "usage_off_peak" ||
      applies.contains "network_offpeak" || applies.contains "network_off_peak" then
    agg.offPeak
  else if applies.contains "usage_shoulder" || applies.contains "shoulder_usage" ||
      applies.contains "network_shoulder" then
    agg.shoulder
  else if applies.contains "usage_total" || applies.contains "total_usage" ||
      applies.contains "usage_all" then
    agg.total
  else if applies.contains "demand" then max_kva
  else if applies.contains "incentive_demand" then incentive_kva
  else 0

/-- The second `applies_to` dispatch choosing `units_used` and
`unit_label` for the breakdown entry; the Boolean records whether the
source stores the `days` integer (`int(units_used)`) rather than a rounded
float. -/
def unitsAndLabel (applies : List String) (agg : UsageAgg) (days : ℤ) (tierUsage : ℚ) :
    ℚ × String × Bool :=
  if applies.contains "usage_peak" || applies.contains "network_peak" then
    (agg.peak, "kWh", false)
  else if applies.contains "usage_offpeak" || applies.contains "usage_off_peak" ||
      applies.contains "network_offpeak" || applies.contains "network_off_peak" then
    (agg.offPeak, "kWh", false)
  else if applies.contains "usage_shoulder" || applies.contains "shoulder_usage" ||
      applies.contains "network_shoulder" then
    (agg.shoulder, "kWh", false)
  else if applies.contains "usage_total" || applies.contains "total_usage" ||
      applies.contains "usage_all" then
    (agg.total, "kWh", false)
  else if applies.contains "demand" then (max_kva, "kVA", false)
  else if applies.contains "incentive_demand" then (incentive_kva, "kVA", false)
  else if applies.contains "fixed" || applies.contains "meter" ||
      applies.contains "metering" || applies.contains "ancillary" then
    ((days : ℚ), "days", true)
  else (tierUsage, "unit", false)

/-- One `{units_used, unit_label, cost}` entry of the breakdown. -/
structure BreakdownEntry where
  units_used : ℚ
  unit_label : String
  cost : ℚ
deriving DecidableEq, Repr

/-- Python dict assignment `breakdown[comp_id] = entry`: replace an
existing binding in place, otherwise append. -/
def dictInsert (m : List (String × BreakdownEntry)) (k : String) (v : BreakdownEntry) :
    List (String × BreakdownEntry) :=
  match m with
  | [] => [(k, v)]
  | (k', v') :: rest => if k' == k then (k, v) :: rest else (k', v') :: dictInsert rest k v

/-- The per-calculation context shared by every component: usage
aggregates, day count, billing start date, and the `base_vars`
environment. -/
structure BillCtx where
  agg : UsageAgg
  days : ℤ
  billingStart : Date
  periodEnd : Date
  bvars : Env
deriving Repr

/-- Context construction inside `calculate_bill`. -/
def mkBillCtx (canonical : Canonical) (readings : List Reading) (start end_ : DateTime) :
    BillCtx :=
  { agg := usageAggOf canonical readings
    days := daysOf start end_
    billingStart := start.date
    periodEnd := end_.date
    bvars := baseVarsOf canonical readings start end_ }

/-- The expression environment for one component: `base_vars` updated with
`rate` and `loss_factor` (the dict update adds two fresh keys; `base_vars`
does not bind either name). -/
def varsForComponent (ctx : BillCtx) (rateDollars lossFactor : ℚ) : Env :=
  ctx.bvars ++ [("rate", .num rateDollars), ("loss_factor", .num lossFactor)]

/-- The season gate of the component loop: skip when both season bounds
parse and the billing period lies wholly outside them
(`end.date() < from_date or start.date() > to_date`); a missing or
unparseable bound raises inside the `try` and the `except` passes, so the
component stays applicable. -/
def seasonSkips (ctx : BillCtx) (comp : Component) : Bool :=
  match comp.season with
  | some s =>
    match s.lo, s.hi with
    | some f, some t => Date.lt ctx.periodEnd f || Date.lt t ctx.billingStart
    | _, _ => false
  | Option.none => false

/-- The complete expression environment for one component: `base_vars`
plus `rate` (the tier-selected, unit-converted rate) and `loss_factor`
(defaulted to 1.0). -/
def componentVars (ctx : BillCtx) (comp : Component) : Env :=
  let applies := comp.applies_to.map strLower
  let tierUsage := usageForTier applies ctx.agg
  let rate_val := _select_rate_value comp.rate_schedule tierUsage
  let rate_dollars := _parse_rate comp.unit rate_val ctx.days ctx.billingStart
  varsForComponent ctx rate_dollars (comp.loss_factor.getD 1)

/-- One iteration of the component loop of `calculate_bill`: `none` means
the loop `continue`s (falsy id, period wholly outside a parseable season
window, missing/empty calculation, or an evaluation failure); otherwise
the component id, its breakdown entry, and the unrounded cost added to the
running total. The source computes the rate and environment before
reading `calculation`; all are pure, so the embedding builds the
environment in `componentVars` where it is used. The source's
`if cost is None` test and second `float(cost)` conversion cannot fail
after `_safe_eval` returned a float and are absorbed; the
`if units_used is None` guard is dead (every branch assigns). -/
def processComponent (ctx : BillCtx) (comp : Component) :
    Option (String × BreakdownEntry × ℚ) :=
  match comp.id with
  | Option.none => Option.none
  | some compId =>
    if compId == "" then Option.none
    else if seasonSkips ctx comp then Option.none
    else
      match comp.calculation with
      | Option.none => Option.none
      | some e =>
        match _safe_eval e (componentVars ctx comp) with
        | .error _ => Option.none
        | .ok cost =>
          let applies := comp.applies_to.map strLower
          let tierUsage := usageForTier applies ctx.agg
          let (uu, label, storeInt) := unitsAndLabel applies ctx.agg ctx.days tierUsage
          some (compId,
            { units_used := if storeInt then uu else round4 uu
              unit_label := label
              cost := round4 cost },
            cost)

/-- The result dictionary of `calculate_bill`. -/
structure CalcResult where
  total_cost : ℚ
  breakdown : List (String × BreakdownEntry)
  units : String
deriving DecidableEq, Repr

/-- One step of the component loop acting on the
`(breakdown, total_cost)` state. -/
def calcStep (ctx : BillCtx) (st : List (String × BreakdownEntry) × ℚ) (comp : Component) :
    List (String × BreakdownEntry) × ℚ :=
  match processComponent ctx comp with
  | Option.none => st
  | some (i, entry, cost) => (dictInsert st.1 i entry, st.2 + cost)

/-- Embedding of `calculate_bill(db, customer_id, tariff_version_id,
start, end)`. The two database reads are explicit arguments: `tv` is the
`TariffVersion` row (`none` when `db.get` finds nothing, in which case the
source returns the zero bill at once), whose payload is the optional
`canonical_json` (`tv.canonical_json or {}` defaults to the empty
document); `readings` is the ordered list of the customer's readings in
`[start, end)`. -/
def calculate_bill (tv : Option (Option Canonical)) (readings : List Reading)
    (start end_ : DateTime) : CalcResult :=
  match tv with
  | Option.none => { total_cost := 0, breakdown := [], units := "AUD" }
  | some cj =>
    let canonical := cj.getD ⟨[], []⟩
    let ctx := mkBillCtx canonical readings start end_
    let st := canonical.components.foldl (calcStep ctx) ([], 0)
    { total_cost := round4 st.2, breakdown := st.1, units := "AUD" }

/-! ## Checksum gate (`checksum.py`) -/

/-- Embedding of `compute_checksum(db, customer_id, tariff_version_id,
start, end)`. The source feeds a SHA-256 object, in order: the tariff
version id (`str`), the `repr` of the canonical JSON when the row exists
and the JSON is truthy, then `str(ts)` and `str(kwh)` of every reading row
of the customer in `[start, end)` in timestamp order, then `str(start)`
and `str(end)`; the hex digest of that stream is returned. SHA-256 is a
fixed deterministic function of its input byte stream, so the embedding
returns the stream itself: two runs produce the same digest exactly when
they produce the same stream. `canonicalRepr` is `some` of the JSON repr
when `tv and tv.canonical_json` is truthy, `rows` is the list of
`(str(timestamp), str(kwh_used))` pairs the query returns. -/
def compute_checksum (tariffVersionId : ℤ) (canonicalRepr : Option String)
    (rows : List (String × String)) (start end_ : String) : String :=
  toString tariffVersionId
    ++ (match canonicalRepr with | some s => s | Option.none => "")
    ++ String.join (rows.map fun p => p.1 ++ p.2)
    ++ start ++ end_

/-! ## Helper lemmas about string suffixes -/

lemma suffix_of_suffix_length_le {α : Type} {l₁ l₂ l₃ : List α}
    (h1 : l₁ <:+ l₃) (h2 : l₂ <:+ l₃) (h : l₁.length ≤ l₂.length) : l₁ <:+ l₂ := by
  obtain ⟨p, hp⟩ := h1
  obtain ⟨q, hq⟩ := h2
  have hpq : q ++ l₂ = p ++ l₁ := by rw [hp, hq]
  rcases List.append_eq_append_iff.mp hpq with ⟨r, _, hr2⟩ | ⟨r, _, hr2⟩
  · exact ⟨r, hr2.symm⟩
  · have hlen : l₁.length = r.length + l₂.length := by
      rw [hr2, List.length_append]
    have hr0 : r.length = 0 := by omega
    have : r = [] := List.length_eq_zero.mp hr0
    subst this
    simp at hr2
    subst hr2
    exact List.suffix_refl _

/-- Two suffix tests on the same string cannot both succeed when the
shorter pattern is not a suffix of the longer one (shorter pattern named
first). -/
lemma ends_conflict_le {s a b : String} (ha : strEndsWith s a = true)
    (hlen : a.data.length ≤ b.data.length) (hns : a.data.isSuffixOf b.data = false) :
    strEndsWith s b = false := by
  by_contra hc
  have hb : strEndsWith s b = true := by cases h' : strEndsWith s b <;> simp_all
  rw [strEndsWith, List.isSuffixOf_iff_suffix] at ha hb
  have := suffix_of_suffix_length_le ha hb hlen
  rw [← List.isSuffixOf_iff_suffix] at this
  rw [this] at hns
  exact Bool.true_eq_false.mp hns

/-- Two suffix tests on the same string cannot both succeed when the
shorter pattern is not a suffix of the longer one (longer pattern named
first). -/
lemma ends_conflict_ge {s a b : String} (ha : strEndsWith s a = true)
    (hlen : b.data.length ≤ a.data.length) (hns : b.data.isSuffixOf a.data = false) :
    strEndsWith s b = false := by
  by_contra hc
  have hb : strEndsWith s b = true := by cases h' : strEndsWith s b <;> simp_all
  rw [strEndsWith, List.isSuffixOf_iff_suffix] at ha hb
  have := suffix_of_suffix_length_le hb ha hlen
  rw [← List.isSuffixOf_iff_suffix] at this
  rw [this] at hns
  exact Bool.true_eq_false.mp hns

unseal Rat.add Rat.mul Rat.inv Rat.sub in
/-- C6, theorem. For every unit string, value, day count and period start:
the unit is matched after strip-and-lowercase normalisation; a `c/` prefix
divides the value by 100 and is stripped before suffix matching; on the
(possibly cent-converted) rate, a `/day` or `/kwh` tail leaves the value
unchanged, a `/mth` or `/month` tail scales it by `days` over the days of
the period-start month, a `/year` tail (which subsumes `/meter/year`)
scales it by `days / 365`, and a unit matching none of the rules is
returned unchanged; finally the spec's two concrete examples. -/
theorem parse_rate_unit_rules :
    (∀ u v d s, _parse_rate (some u) v d s =
      (if strStartsWith (unitNorm u) "c/"
       then ratePostCents (strDrop (unitNorm u) 2) (v / 100) d s
       else ratePostCents (unitNorm u) v d s)) ∧
    (∀ m r d s, strEndsWith m "/day" = true → ratePostCents m r d s = r) ∧
    (∀ m r d s, strEndsWith m "/kwh" = true → ratePostCents m r d s = r) ∧
    (∀ m r d s, strEndsWith m "/mth" = true ∨ strEndsWith m "/month" = true →
      ratePostCents m r d s = r * ((d : ℚ) / (daysInMonth s.year s.month : ℚ))) ∧
    (∀ m r d s, strEndsWith m "/year" = true →
      ratePostCents m r d s = r * ((d : ℚ) / 365)) ∧
    (∀ u v d s, strStartsWith (unitNorm u) "c/" = false →
      strEndsWith (unitNorm u) "/day" = false →
      strEndsWith (unitNorm u) "/kwh" = false →
      strEndsWith (unitNorm u) "/mth" = false →
      strEndsWith (unitNorm u) "/month" = false →
      strEndsWith (unitNorm u) "/year" = false →
      _parse_rate (some u) v d s = v) ∧
    _parse_rate (some "$/kVA/Mth") 10 15 ⟨2024, 2, 1⟩ = 10 * ((15 : ℚ) / 29) ∧
    _parse_rate (some "c/kWh") 25 30 ⟨2024, 1, 1⟩ = 1 / 4 := by
  refine ⟨?_, ?_, ?_, ?_, ?_, ?_, ?_, ?_⟩
  · intro u v d s
    rfl
  · intro m r d s h
    simp [ratePostCents, h]
  · intro m r d s h
    have hd : strEndsWith m "/day" = false := ends_conflict_le h (by decide) (by decide)
    simp [ratePostCents, h, hd]
  · intro m r d s h
    rcases h with h | h
    · have h1 : strEndsWith m "/day" = false := ends_conflict_le h (by decide) (by decide)
      have h2 : strEndsWith m "/kwh" = false := ends_conflict_le h (by decide) (by decide)
      simp [ratePostCents, h, h1, h2]
    · have h1 : strEndsWith m "/day" = false := ends_conflict_ge h (by decide) (by decide)
      have h2 : strEndsWith m "/kwh" = false := ends_conflict_ge h (by decide) (by decide)
      simp [ratePostCents, h, h1, h2]
  · intro m r d s h
    have h1 : strEndsWith m "/day" = false := ends_conflict_ge h (by decide) (by decide)
    have h2 : strEndsWith m "/kwh" = false := ends_conflict_ge h (by decide) (by decide)
    have h3 : strEndsWith m "/mth" = false := ends_conflict_ge h (by decide) (by decide)
    have h4 : strEndsWith m "/month" = false := ends_conflict_le h (by decide) (by decide)
    simp [ratePostCents, h, h1, h2, h3, h4]
  · intro u v d s hc h1 h2 h3 h4 h5
    have h6 : strEndsWith (unitNorm u) "/meter/year" = false := by
      by_contra hx
      have hx' : strEndsWith (unitNorm u) "/meter/year" = true := by
        cases h' : strEndsWith (unitNorm u) "/meter/year" <;> simp_all
      have : strEndsWith (unitNorm u) "/year" = true := by
        rw [strEndsWith, List.isSuffixOf_iff_suffix] at hx' ⊢
        exact List.IsSuffix.trans (by decide) hx'
      rw [this] at h5
      exact Bool.true_eq_false.mp h5
    simp [_parse_rate, ratePostCents, hc, h1, h2, h3, h4, h5, h6]
  · decide
  · decide

unseal Rat.add Rat.mul Rat.inv Rat.sub in
/-- C6, witness: the theorem applied at the spec's concrete inputs, the
suffix-rule conjuncts instantiated at normalised units. -/
theorem parse_rate_unit_rules_witness :
    ratePostCents "$/kva/mth" 10 15 ⟨2024, 2, 1⟩ = 10 * ((15 : ℚ) / 29) ∧
    ratePostCents "$/kwh" (1 / 4) 30 ⟨2024, 1, 1⟩ = 1 / 4 ∧
    ratePostCents "$/site/day" 5 30 ⟨2024, 1, 1⟩ = 5 ∧
    ratePostCents "$/meter/year" 7 73 ⟨2023, 3, 1⟩ = 7 * ((73 : ℚ) / 365) ∧
    _parse_rate (some "widgets") 3 30 ⟨2024, 1, 1⟩ = 3 := by
  refine ⟨?_, ?_, ?_, ?_, ?_⟩
  · exact parse_rate_unit_rules.2.2.2.1 "$/kva/mth" 10 15 ⟨2024, 2, 1⟩ (Or.inl (by decide))
  · exact parse_rate_unit_rules.2.2.1 "$/kwh" (1 / 4) 30 ⟨2024, 1, 1⟩ (by decide)
  · exact parse_rate_unit_rules.2.1 "$/site/day" 5 30 ⟨2024, 1, 1⟩ (by decide)
  · exact parse_rate_unit_rules.2.2.2.2.1 "$/meter/year" 7 73 ⟨2023, 3, 1⟩ (by decide)
  · exact parse_rate_unit_rules.2.2.2.2.2.1 "widgets" 3 30 ⟨2024, 1, 1⟩ (by decide) (by decide)
      (by decide) (by decide) (by decide) (by decide)

/-- C9, theorem: `_select_rate_value` on an empty schedule returns 0.0 for
every usage value (and a missing `rate_schedule` reaches it as the empty
list via `comp.get('rate_schedule', [])`), so a component with no tiers is
billed at a zero rate rather than raising. -/
theorem select_rate_value_empty_schedule (usage : ℚ) : _select_rate_value [] usage = 0 := rfl

/-- The tier-admission test of the source's tier loop (`_select_rate_value`),
split by which bounds are present: no `from`: admitted when `to` is absent
or `usage <= to`; `from` only: admitted when `from <= usage`; both:
admitted when `from <= usage < to`. -/
def tierAdmits (usage : ℚ) (t : Tier) : Bool :=
  match t.lo, t.hi with
  | Option.none, Option.none => true
  | Option.none, some hi => usage ≤ hi
  | some lo, Option.none => lo ≤ usage
  | some lo, some hi => lo ≤ usage && usage < hi

lemma findApplicable_eq_find? (usage : ℚ) (sched : List Tier) :
    findApplicable usage sched = (sched.find? (tierAdmits usage)).map tierValue := by
  induction sched with
  | nil => rfl
  | cons t rest ih =>
    rcases t with ⟨lo, hi, v⟩
    match lo, hi with
    | Option.none, Option.none => simp [findApplicable, List.find?, tierAdmits]
    | Option.none, some hi =>
      by_cases h : usage ≤ hi <;>
        simp [findApplicable, List.find?, tierAdmits, h, ih]
    | some lo, Option.none =>
      by_cases h : lo ≤ usage <;>
        simp [findApplicable, List.find?, tierAdmits, h, ih]
    | some lo, some hi =>
      by_cases h1 : lo ≤ usage <;> by_cases h2 : usage < hi <;>
        simp [findApplicable, List.find?, tierAdmits, h1, h2, ih]

/-- C2, amended theorem: a single-tier schedule returns its tier's value
regardless of usage; a multi-tier schedule returns the value of the first
tier admitting the usage under the source's bound tests (`[from, to)` when
both bounds are present, `usage <= to` — upper bound inclusive — when
`from` is absent, `from <= usage` when `to` is absent, always when both
are absent), falling back to the last tier's value when no tier admits. -/
theorem select_rate_value_spec :
    (∀ t usage, _select_rate_value [t] usage = tierValue t) ∧
    (∀ sched usage, 2 ≤ sched.length →
      _select_rate_value sched usage =
        match sched.find? (tierAdmits usage) with
        | some t => tierValue t
        | Option.none => (sched.getLast?.map tierValue).getD 0) := by
  constructor
  · intro t usage
    rfl
  · intro sched usage hlen
    match sched with
    | t1 :: t2 :: rest =>
      show (match findApplicable usage (t1 :: t2 :: rest) with
        | some v => v
        | Option.none => (((t1 :: t2 :: rest).getLast?).map tierValue).getD 0) = _
      rw [findApplicable_eq_find?]
      cases (t1 :: t2 :: rest).find? (tierAdmits usage) <;> simp

/-- C2, witness for the amended theorem: a two-tier schedule at a usage
inside the second tier selects the second tier, and a one-tier schedule
ignores usage. -/
theorem select_rate_value_spec_witness :
    _select_rate_value [⟨Option.none, some 10, some 1⟩] 50 = 1 ∧
    _select_rate_value [⟨Option.none, some 10, some 1⟩, ⟨some 10, Option.none, some 2⟩] 50 = 2 := by
  constructor
  · exact select_rate_value_spec.1 ⟨Option.none, some 10, some 1⟩ 50
  · have := select_rate_value_spec.2
      [⟨Option.none, some 10, some 1⟩, ⟨some 10, Option.none, some 2⟩] 50 (by decide)
    rw [this]
    decide

/-- The claim's tier-matching rule as literally stated: `usage` lies in
the half-open interval `[from, to)`, a missing `from` read as negative
infinity and a missing `to` as positive infinity. -/
def tierMatchesClaim (usage : ℚ) (t : Tier) : Bool :=
  (match t.lo with | Option.none => true | some lo => lo ≤ usage) &&
  (match t.hi with | Option.none => true | some hi => usage < hi)

/-- C2 as stated by the claim: first tier matching the half-open rule,
else the last tier's value (single-tier schedules unconditional). -/
def select_rate_claim (sched : List Tier) (usage : ℚ) : ℚ :=
  match sched with
  | [] => 0
  | [t] => tierValue t
  | _ =>
    match sched.find? (tierMatchesClaim usage) with
    | some t => tierValue t
    | Option.none => (sched.getLast?.map tierValue).getD 0

/-- C2, counterexample: with tiers `{to: 10, value: 1}, {from: 10,
value: 2}` and usage exactly 10, the claim's half-open rule picks the
second tier (value 2), but the source's `usage <= to` test on a tier with
no `from` is inclusive and returns the first tier's value 1. -/
theorem select_rate_value_boundary_counterexample :
    _select_rate_value [⟨Option.none, some 10, some 1⟩, ⟨some 10, Option.none, some 2⟩] 10 = 1 ∧
    select_rate_claim [⟨Option.none, some 10, some 1⟩, ⟨some 10, Option.none, some 2⟩] 10 = 2 := by
  constructor <;> decide

/-- C5, counterexample: a missing tariff version with an empty reading
list yields exactly the zero-cost bill with an empty breakdown — the
claim asserts no such input does. -/
theorem calculate_bill_missing_tariff_counterexample :
    calculate_bill Option.none [] ⟨⟨2024, 1, 1⟩, 0, 0⟩ ⟨⟨2024, 1, 31⟩, 0, 0⟩ =
      { total_cost := 0, breakdown := [], units := "AUD" } := rfl

/-- C5, amended theorem: when the tariff version row is missing,
`calculate_bill` returns the zero-cost bill `{0.0, {}, "AUD"}` for every
reading list and period, rather than surfacing an error; and when the
period contains no readings the calculation proceeds with every usage
aggregate equal to zero (no `DataGapError` exists in the engine). -/
theorem calculate_bill_missing_tariff_zero_bill :
    (∀ (readings : List Reading) (start end_ : DateTime),
      calculate_bill Option.none readings start end_ =
        { total_cost := 0, breakdown := [], units := "AUD" }) ∧
    (∀ canonical : Canonical, usageAggOf canonical [] = ⟨0, 0, 0, 0⟩) := by
  constructor
  · intro readings start end_
    rfl
  · intro canonical
    rfl

/-- Full-match test for one time band, read off the source's loop: (i) no
date ranges are given (field absent, or present and empty — both falsy in
the source's `if date_ranges:` test) or some range contains the
timestamp's date inclusively; (ii) the lowercased `days` contains `"all"`
or the timestamp's lowercase 3-letter weekday abbreviation; (iii) some
`times` span has both endpoints and satisfies `from <= HH:MM < to` under
lexicographic string comparison. -/
def bandMatches (ts : DateTime) (band : TimeBand) : Bool :=
  bandDateOk ts.date band && bandDaysOk ts.date.weekdayAbbr band &&
    band.times.any (spanMatch ts.timeStr)

lemma assignBandGo_eq_find? (ts : DateTime) (bands : List TimeBand) :
    assignBandGo ts.date ts.date.weekdayAbbr ts.timeStr bands =
      match bands.find? (bandMatches ts) with
      | some band => band.id.getD "off_peak"
      | Option.none => "off_peak" := by
  induction bands with
  | nil => rfl
  | cons band rest ih =>
    cases hdate : bandDateOk ts.date band with
    | false =>
      have hm : bandMatches ts band = false := by simp [bandMatches, hdate]
      simp [assignBandGo, List.find?, hdate, hm, ih]
    | true =>
      cases hdays : bandDaysOk ts.date.weekdayAbbr band with
      | false =>
        have hm : bandMatches ts band = false := by simp [bandMatches, hdays]
        simp [assignBandGo, List.find?, hdate, hdays, hm, ih]
      | true =>
        cases hf : band.times.find? (spanMatch ts.timeStr) with
        | none =>
          have hany : band.times.any (spanMatch ts.timeStr) = false := by
            rw [List.any_eq_false]
            intro x hx
            have := List.find?_eq_none.mp hf x hx
            simpa using this
          have hm : bandMatches ts band = false := by simp [bandMatches, hany]
          simp [assignBandGo, List.find?, hdate, hdays, hf, hm, ih]
        | some sp =>
          have hany : band.times.any (spanMatch ts.timeStr) = true := by
            rw [List.any_eq_true]
            exact ⟨sp, List.mem_of_find?_eq_some hf, List.find?_some hf⟩
          have hm : bandMatches ts band = true := by simp [bandMatches, hdate, hdays, hany]
          simp [assignBandGo, List.find?, hdate, hdays, hf, hm]

/-- C3, theorem: `assign_band` is total by type and returns, for every
timestamp and tariff document, the id of the first band (in declaration
order) that fully matches — date-range condition, day-of-week condition,
and some `from <= HH:MM < to` span under lexicographic comparison — and
`"off_peak"` when no band matches (a matching band with no `id` key also
yields the `"off_peak"` default, as in the source's
`band.get("id", "off_peak")`). -/
theorem assign_band_first_full_match (ts : DateTime) (canonical : Canonical) :
    assign_band ts canonical =
      match canonical.time_bands.find? (bandMatches ts) with
      | some band => band.id.getD "off_peak"
      | Option.none => "off_peak" :=
  assignBandGo_eq_find? ts canonical.time_bands

/-! ## Claims about the expression evaluator -/

/-- C7, counterexample: in the chain `1 < 0 < 1/0` the first pair is
already false, so under the claimed Python-style short-circuit the chain
would return `False` (coerced to 0.0); the source instead evaluates every
comparator eagerly and raises on the division by zero. -/
theorem compare_short_circuit_counterexample :
    _safe_eval
      (.compare (.const (.num 1))
        [(.lt, .const (.num 0)), (.lt, .binop .div (.const (.num 1)) (.const (.num 0)))]) [] =
      .error "division by zero" := rfl

/-- The per-pair comparison chain on already-evaluated comparator values:
compare each adjacent pair in order, threading the right operand as the
next left operand. -/
def cmpListOnVals : Value → List (PyCmpOp × Value) → Except String (List Bool)
  | _, [] => .ok []
  | left, (op, right) :: rest => do
    let b ← evalCmp op left right
    let bs ← cmpListOnVals right rest
    .ok (b :: bs)

lemma evalPyPairs_eq_cmpListOnVals (env : Env) :
    ∀ (rest : List (PyCmpOp × PyExpr)) (vs : List (PyCmpOp × Value)) (vl : Value),
      List.Forall₂
        (fun (p : PyCmpOp × PyExpr) (q : PyCmpOp × Value) =>
          p.1 = q.1 ∧ evalPyExpr p.2 env = .ok q.2) rest vs →
      evalPyPairs vl rest env = cmpListOnVals vl vs := by
  intro rest
  induction rest with
  | nil =>
    intro vs vl h
    cases h
    rfl
  | cons p rest ih =>
    intro vs vl h
    cases h with
    | cons hpq htail =>
      rename_i q vs'
      rcases p with ⟨op, e⟩
      rcases q with ⟨op2, v⟩
      obtain ⟨hop, hv⟩ := hpq
      simp only at hop hv
      subst hop
      simp only [evalPyPairs, cmpListOnVals, hv, bind, Except.bind]
      cases hc : evalCmp op vl v with
      | error m => rfl
      | ok b => rw [ih vs' v htail]

/-- C7, amended theorem: a chain whose comparators all evaluate compares
every adjacent pair in order and the chain holds iff every pair holds
(the result is the conjunction of the pair results); but the comparators
are evaluated eagerly left to right with no short-circuit between pairs,
so a later comparator that raises fails the whole evaluation even when an
earlier pair is already false — witnessed by `2 < 1 < 1 % 0`, whose first
pair is false and which still fails with the modulo-by-zero error. -/
theorem compare_pairwise_conjunction :
    (∀ (env : Env) (l : PyExpr) (rest : List (PyCmpOp × PyExpr))
        (vl : Value) (vs : List (PyCmpOp × Value)),
      evalPyExpr l env = .ok vl →
      List.Forall₂
        (fun (p : PyCmpOp × PyExpr) (q : PyCmpOp × Value) =>
          p.1 = q.1 ∧ evalPyExpr p.2 env = .ok q.2) rest vs →
      evalPyExpr (.compare l rest) env =
        Except.map (fun bs => Value.bool (bs.all id)) (cmpListOnVals vl vs)) ∧
    _safe_eval
      (.compare (.const (.num 2))
        [(.lt, .const (.num 1)), (.lt, .binop .mod (.const (.num 1)) (.const (.num 0)))]) [] =
      .error "modulo by zero" := by
  constructor
  · intro env l rest vl vs hl hf
    simp only [evalPyExpr, hl, bind, Except.bind]
    rw [evalPyPairs_eq_cmpListOnVals env rest vs vl hf]
    cases cmpListOnVals vl vs with
    | error msg => rfl
    | ok bs => rfl
  · rfl

/-- C7, witness for the amended theorem: the chain `3 <= 3 < 5` with both
pairs holding evaluates to `True`. -/
theorem compare_pairwise_conjunction_witness :
    evalPyExpr (.compare (.const (.num 3)) [(.le, .const (.num 3)), (.lt, .const (.num 5))]) [] =
      .ok (.bool true) := by
  have h := compare_pairwise_conjunction.1 [] (.const (.num 3))
    [(.le, .const (.num 3)), (.lt, .const (.num 5))]
    (.num 3) [(.le, .num 3), (.lt, .num 5)] rfl
    (List.Forall₂.cons ⟨rfl, rfl⟩ (List.Forall₂.cons ⟨rfl, rfl⟩ List.Forall₂.nil))
  rw [h]
  rfl

/-- Success test for an evaluation result. -/
def evalSucceeds {α : Type} : Except String α → Bool
  | .ok _ => true
  | .error _ => false

/-- The identifiers `_eval` resolves without raising: keys of the variable
dict, the whitelisted function names, and the module name `math`. -/
def allowedIdent (env : Env) (id : String) : Bool :=
  (env.lookup id).isSome || allowedFuncNames.contains id || id == "math"

mutual

/-- A disallowed identifier, node kind or operator occurs in a strictly
evaluated position of the expression: everywhere except the two branches
of a conditional expression (whose test is strict but whose branches are
evaluated only when taken). Disallowed node kinds and operators count at
their own node; all other constructs evaluate every child. -/
def strictBad (env : Env) : PyExpr → Bool
  | .const _ => false
  | .name id => !allowedIdent env id
  | .binop op l r => op == .otherOp || strictBad env l || strictBad env r
  | .unaryop op e => op == .otherUnary || strictBad env e
  | .call f args kwargs =>
    strictBad env f || strictBadList env args || strictBadKw env kwargs
  | .ifexp t _ _ => strictBad env t
  | .compare l rest => strictBad env l || strictBadPairs env rest
  | .boolop _ vs => strictBadList env vs
  | .attrAccess _ _ => true
  | .subscript _ _ => true
  | .lambda => true
  | .comprehension => true
  | .otherNode _ => true

/-- `strictBad` over a list of argument expressions. -/
def strictBadList (env : Env) : List PyExpr → Bool
  | [] => false
  | e :: es => strictBad env e || strictBadList env es

/-- `strictBad` over keyword arguments. -/
def strictBadKw (env : Env) : List (String × PyExpr) → Bool
  | [] => false
  | (_, e) :: es => strictBad env e || strictBadKw env es

/-- `strictBad` over comparison pairs: a disallowed comparison operator or
a bad comparator expression. -/
def strictBadPairs (env : Env) : List (PyCmpOp × PyExpr) → Bool
  | [] => false
  | (op, e) :: rest => op == .otherCmp || strictBad env e || strictBadPairs env rest

end

lemma strictBadList_iff {env : Env} {l : List PyExpr} :
    strictBadList env l = true ↔ ∃ e ∈ l, strictBad env e = true := by
  induction l with
  | nil => simp [strictBadList]
  | cons x xs ih => simp [strictBadList, ih, or_and_right, exists_or]

lemma strictBadKw_iff {env : Env} {l : List (String × PyExpr)} :
    strictBadKw env l = true ↔ ∃ p ∈ l, strictBad env p.2 = true := by
  induction l with
  | nil => simp [strictBadKw]
  | cons x xs ih =>
    rcases x with ⟨k, e⟩
    simp [strictBadKw, ih]

lemma strictBadPairs_iff {env : Env} {l : List (PyCmpOp × PyExpr)} :
    strictBadPairs env l = true ↔
      ∃ p ∈ l, p.1 = PyCmpOp.otherCmp ∨ strictBad env p.2 = true := by
  induction l with
  | nil => simp [strictBadPairs]
  | cons x xs ih =>
    rcases x with ⟨op, e⟩
    simp [strictBadPairs, ih]

lemma evalPyList_fails {env : Env} {l : List PyExpr}
    (h : ∃ e ∈ l, evalSucceeds (evalPyExpr e env) = false) :
    evalSucceeds (evalPyList l env) = false := by
  induction l with
  | nil =>
    rcases h with ⟨e, he, _⟩
    cases he
  | cons x xs ih =>
    rcases h with ⟨e, he, hbad⟩
    simp only [evalPyList, bind, Except.bind]
    rcases List.mem_cons.mp he with rfl | hmem
    · cases hx : evalPyExpr e env with
      | error m => rfl
      | ok v => rw [hx] at hbad; exact absurd hbad (by simp [evalSucceeds])
    · cases hx : evalPyExpr x env with
      | error m => rfl
      | ok v =>
        have htail := ih ⟨e, hmem, hbad⟩
        cases hy : evalPyList xs env with
        | error m => rfl
        | ok vs => rw [hy] at htail; exact absurd htail (by simp [evalSucceeds])

lemma evalPyKwargs_fails {env : Env} {l : List (String × PyExpr)}
    (h : ∃ p ∈ l, evalSucceeds (evalPyExpr p.2 env) = false) :
    evalSucceeds (evalPyKwargs l env) = false := by
  induction l with
  | nil =>
    rcases h with ⟨e, he, _⟩
    cases he
  | cons x xs ih =>
    rcases x with ⟨k, xe⟩
    rcases h with ⟨p, hp, hbad⟩
    simp only [evalPyKwargs, bind, Except.bind]
    rcases List.mem_cons.mp hp with rfl | hmem
    · cases hx : evalPyExpr xe env with
      | error m => rfl
      | ok v => rw [hx] at hbad; exact absurd hbad (by simp [evalSucceeds])
    · cases hx : evalPyExpr xe env with
      | error m => rfl
      | ok v =>
        have htail := ih ⟨p, hmem, hbad⟩
        cases hy : evalPyKwargs xs env with
        | error m => rfl
        | ok vs => rw [hy] at htail; exact absurd htail (by simp [evalSucceeds])

lemma evalPyPairs_fails {env : Env} {l : List (PyCmpOp × PyExpr)}
    (h : ∃ p ∈ l, p.1 = PyCmpOp.otherCmp ∨ evalSucceeds (evalPyExpr p.2 env) = false) :
    ∀ vl, evalSucceeds (evalPyPairs vl l env) = false := by
  induction l with
  | nil =>
    rcases h with ⟨p, hp, _⟩
    cases hp
  | cons x xs ih =>
    intro vl
    rcases x with ⟨op, xe⟩
    rcases h with ⟨p, hp, hbad⟩
    simp only [evalPyPairs, bind, Except.bind]
    rcases List.mem_cons.mp hp with rfl | hmem
    · rcases hbad with hop | heval
      · simp only at hop
        subst hop
        cases hx : evalPyExpr xe env with
        | error m => rfl
        | ok v => simp [evalCmp, evalSucceeds]
      · cases hx : evalPyExpr xe env with
        | error m => rfl
        | ok v => rw [hx] at heval; exact absurd heval (by simp [evalSucceeds])
    · cases hx : evalPyExpr xe env with
      | error m => rfl
      | ok v =>
        cases hc : evalCmp op vl v with
        | error m => simp [hc, evalSucceeds]
        | ok b =>
          simp only [hc]
          have htail := ih ⟨p, hmem, hbad⟩ v
          cases hy : evalPyPairs v xs env with
          | error m => simp [hy, evalSucceeds]
          | ok bs => rw [hy] at htail; exact absurd htail (by simp [evalSucceeds])

lemma strictBad_eval_fails_aux :
    ∀ (n : ℕ) (e : PyExpr) (env : Env), sizeOf e ≤ n → strictBad env e = true →
      evalSucceeds (evalPyExpr e env) = false := by
  intro n
  induction n with
  | zero =>
    intro e env hs _
    exfalso
    have : 0 < sizeOf e := by cases e <;> simp_arith
    omega
  | succ n ih =>
    intro e env hs hbad
    cases e with
    | const v => simp [strictBad] at hbad
    | name id =>
      simp only [strictBad, Bool.not_eq_true'] at hbad
      simp only [allowedIdent, Bool.or_eq_false_iff] at hbad
      obtain ⟨⟨h1, h2⟩, h3⟩ := hbad
      have hl : env.lookup id = Option.none := by
        cases hval : env.lookup id with
        | none => rfl
        | some v => rw [hval] at h1; simp at h1
      have h2m : id ∉ allowedFuncNames := by simpa using h2
      simp [evalPyExpr, evalName, hl, h2m, h3, evalSucceeds]
    | binop op l r =>
      simp only [PyExpr.binop.sizeOf_spec] at hs
      simp only [strictBad, Bool.or_eq_true, beq_iff_eq] at hbad
      simp only [evalPyExpr, bind, Except.bind]
      rcases hbad with (hop | hl) | hr
      · subst hop
        cases hx : evalPyExpr l env with
        | error m => rfl
        | ok a =>
          cases hy : evalPyExpr r env with
          | error m => rfl
          | ok b => simp [evalBinOp, evalSucceeds]
      · have hfail := ih l env (by omega) hl
        cases hx : evalPyExpr l env with
        | error m => rfl
        | ok a => rw [hx] at hfail; simp [evalSucceeds] at hfail
      · have hfail := ih r env (by omega) hr
        cases hx : evalPyExpr l env with
        | error m => rfl
        | ok a =>
          cases hy : evalPyExpr r env with
          | error m => rfl
          | ok b => rw [hy] at hfail; simp [evalSucceeds] at hfail
    | unaryop op e' =>
      simp only [PyExpr.unaryop.sizeOf_spec] at hs
      simp only [strictBad, Bool.or_eq_true, beq_iff_eq] at hbad
      simp only [evalPyExpr, bind, Except.bind]
      rcases hbad with hop | he
      · subst hop
        cases hx : evalPyExpr e' env with
        | error m => rfl
        | ok a => simp [evalUnOp, evalSucceeds]
      · have hfail := ih e' env (by omega) he
        cases hx : evalPyExpr e' env with
        | error m => rfl
        | ok a => rw [hx] at hfail; simp [evalSucceeds] at hfail
    | call f args kwargs =>
      simp only [PyExpr.call.sizeOf_spec] at hs
      simp only [strictBad, Bool.or_eq_true] at hbad
      simp only [evalPyExpr, bind, Except.bind]
      rcases hbad with (hf | hargs) | hkw
      · have hfail := ih f env (by omega) hf
        cases hx : evalPyExpr f env with
        | error m => rfl
        | ok fv => rw [hx] at hfail; simp [evalSucceeds] at hfail
      · cases hx : evalPyExpr f env with
        | error m => rfl
        | ok fv =>
          obtain ⟨e', hmem, hb⟩ := strictBadList_iff.mp hargs
          have hse : sizeOf e' < sizeOf args := List.sizeOf_lt_of_mem hmem
          have hfail := evalPyList_fails ⟨e', hmem, ih e' env (by omega) hb⟩
          cases hy : evalPyList args env with
          | error m => rfl
          | ok vs => rw [hy] at hfail; simp [evalSucceeds] at hfail
      · cases hx : evalPyExpr f env with
        | error m => rfl
        | ok fv =>
          cases hy : evalPyList args env with
          | error m => rfl
          | ok vs =>
            obtain ⟨p, hmem, hb⟩ := strictBadKw_iff.mp hkw
            have hsp : sizeOf p < sizeOf kwargs := List.sizeOf_lt_of_mem hmem
            have hsp2 : sizeOf p.2 ≤ sizeOf p := by
              rcases p with ⟨k, pe⟩
              simp only [Prod.mk.sizeOf_spec]
              omega
            have hfail := evalPyKwargs_fails ⟨p, hmem, ih p.2 env (by omega) hb⟩
            cases hz : evalPyKwargs kwargs env with
            | error m => rfl
            | ok kws => rw [hz] at hfail; simp [evalSucceeds] at hfail
    | ifexp t b o =>
      simp only [PyExpr.ifexp.sizeOf_spec] at hs
      simp only [strictBad] at hbad
      simp only [evalPyExpr, bind, Except.bind]
      have hfail := ih t env (by omega) hbad
      cases hx : evalPyExpr t env with
      | error m => rfl
      | ok c => rw [hx] at hfail; simp [evalSucceeds] at hfail
    | compare l rest =>
      simp only [PyExpr.compare.sizeOf_spec] at hs
      simp only [strictBad, Bool.or_eq_true] at hbad
      simp only [evalPyExpr, bind, Except.bind]
      rcases hbad with hl | hrest
      · have hfail := ih l env (by omega) hl
        cases hx : evalPyExpr l env with
        | error m => rfl
        | ok vl => rw [hx] at hfail; simp [evalSucceeds] at hfail
      · cases hx : evalPyExpr l env with
        | error m => rfl
        | ok vl =>
          dsimp only
          obtain ⟨p, hmem, hb⟩ := strictBadPairs_iff.mp hrest
          have hsp : sizeOf p < sizeOf rest := List.sizeOf_lt_of_mem hmem
          have hsp2 : sizeOf p.2 ≤ sizeOf p := by
            rcases p with ⟨op, pe⟩
            simp only [Prod.mk.sizeOf_spec]
            omega
          have hb' : p.1 = PyCmpOp.otherCmp ∨ evalSucceeds (evalPyExpr p.2 env) = false := by
            rcases hb with hb | hb
            · exact Or.inl hb
            · exact Or.inr (ih p.2 env (by omega) hb)
          have hfail := evalPyPairs_fails ⟨p, hmem, hb'⟩ vl
          cases hy : evalPyPairs vl rest env with
          | error m => rfl
          | ok bs => rw [hy] at hfail; simp [evalSucceeds] at hfail
    | boolop op vs =>
      simp only [PyExpr.boolop.sizeOf_spec] at hs
      simp only [strictBad] at hbad
      simp only [evalPyExpr, bind, Except.bind]
      obtain ⟨e', hmem, hb⟩ := strictBadList_iff.mp hbad
      have hse : sizeOf e' < sizeOf vs := List.sizeOf_lt_of_mem hmem
      have hfail := evalPyList_fails ⟨e', hmem, ih e' env (by omega) hb⟩
      cases hy : evalPyList vs env with
      | error m => rfl
      | ok vals => rw [hy] at hfail; simp [evalSucceeds] at hfail
    | attrAccess obj attrName => rfl
    | subscript obj idx => rfl
    | lambda => rfl
    | comprehension => rfl
    | otherNode k => rfl

/-- C1, counterexample: the expression `1 if 2 else (3).x` contains an
attribute-access node — a node kind outside the allowed set — yet the
evaluator returns the value 1.0, because `IfExp` evaluates only the taken
branch and validation happens on encounter during evaluation, not by
pre-validating the tree; the same attribute node evaluated on its own is
rejected. -/
theorem eval_untaken_branch_counterexample :
    _safe_eval
      (.ifexp (.const (.num 2)) (.const (.num 1)) (.attrAccess (.const (.num 3)) "x")) [] =
      .ok 1 ∧
    evalPyExpr (.attrAccess (.const (.num 3)) "x") [] = .error "Unsupported expression" :=
  ⟨rfl, rfl⟩

/-- C1, amended theorem: (1) the evaluation of any expression carrying a
disallowed identifier (one outside the variable environment, the
whitelisted `math` callables, `min`/`max`/`round`, and the module name
`math`), or a disallowed node kind or operator, in a strictly evaluated
position — anywhere except inside a branch of a conditional expression —
fails and never returns a value; (2) a division whose right operand
evaluates to zero likewise fails. -/
theorem eval_rejects_disallowed_strict :
    (∀ (env : Env) (e : PyExpr), strictBad env e = true →
      evalSucceeds (evalPyExpr e env) = false) ∧
    (∀ (env : Env) (l r : PyExpr), evalPyExpr r env = .ok (.num 0) →
      evalSucceeds (evalPyExpr (.binop .div l r) env) = false) := by
  constructor
  · intro env e h
    exact strictBad_eval_fails_aux (sizeOf e) e env le_rfl h
  · intro env l r hr
    simp only [evalPyExpr, bind, Except.bind]
    cases hx : evalPyExpr l env with
    | error m => rfl
    | ok a =>
      dsimp only
      rw [hr]
      cases a <;> simp [evalBinOp, asNum, evalSucceeds]

/-- C1, witness: an undefined identifier, a subscript node, and `7 / 0`
all fail to evaluate. -/
theorem eval_rejects_disallowed_strict_witness :
    evalSucceeds (evalPyExpr (.name "undefined_var") []) = false ∧
    evalSucceeds
      (evalPyExpr (.binop .add (.const (.num 1))
        (.subscript (.name "total_usage") (.const (.num 0)))) [("total_usage", .num 5)]) = false ∧
    evalSucceeds (evalPyExpr (.binop .div (.const (.num 7)) (.const (.num 0))) []) = false := by
  refine ⟨?_, ?_, ?_⟩
  · exact eval_rejects_disallowed_strict.1 [] (.name "undefined_var") rfl
  · exact eval_rejects_disallowed_strict.1 [("total_usage", .num 5)]
      (.binop .add (.const (.num 1)) (.subscript (.name "total_usage") (.const (.num 0)))) rfl
  · exact eval_rejects_disallowed_strict.2 [] (.const (.num 7)) (.const (.num 0)) rfl

/-! ## Claims about the orchestrator -/

lemma processComponent_none_of_eval_failure {ctx : BillCtx} {comp : Component}
    {e : PyExpr} {m : String} (hc : comp.calculation = some e)
    (he : _safe_eval e (componentVars ctx comp) = .error m) :
    processComponent ctx comp = Option.none := by
  cases hid : comp.id with
  | none => simp [processComponent, hid]
  | some compId =>
    by_cases hemp : compId == ""
    · simp [processComponent, hid, hemp]
    · by_cases hseason : seasonSkips ctx comp
      · simp [processComponent, hid, hemp, hseason]
      · simp [processComponent, hid, hemp, hseason, hc, he]

lemma foldl_calcStep_skip (ctx : BillCtx) (comp : Component)
    (hskip : processComponent ctx comp = Option.none) :
    ∀ (pre post : List Component) (st : List (String × BreakdownEntry) × ℚ),
      (pre ++ comp :: post).foldl (calcStep ctx) st = (pre ++ post).foldl (calcStep ctx) st := by
  intro pre
  induction pre with
  | nil =>
    intro post st
    simp [List.foldl, calcStep, hskip]
  | cons c cs ih =>
    intro post st
    simp only [List.cons_append, List.foldl]
    exact ih post _

/-- C4, theorem: if one component's calculation expression fails to
evaluate, the bill is exactly the bill computed without that component:
it appears nowhere in the breakdown, contributes nothing to `total_cost`,
every sibling component before and after it is processed unchanged, and
the calculation does not abort. -/
theorem eval_failure_skips_component
    (tb : List TimeBand) (pre post : List Component) (comp : Component)
    (readings : List Reading) (start end_ : DateTime) (e : PyExpr) (m : String)
    (hc : comp.calculation = some e)
    (he : _safe_eval e
      (componentVars (mkBillCtx ⟨pre ++ comp :: post, tb⟩ readings start end_) comp) =
      .error m) :
    calculate_bill (some (some ⟨pre ++ comp :: post, tb⟩)) readings start end_ =
      calculate_bill (some (some ⟨pre ++ post, tb⟩)) readings start end_ := by
  have hskip := processComponent_none_of_eval_failure hc he
  have hctx : mkBillCtx ⟨pre ++ comp :: post, tb⟩ readings start end_ =
      mkBillCtx ⟨pre ++ post, tb⟩ readings start end_ := rfl
  simp only [calculate_bill, Option.getD]
  rw [hctx, foldl_calcStep_skip _ comp (hctx ▸ hskip) pre post ([], 0)]

/-- C4, witness: a tariff with a well-formed component followed by a
component whose calculation references an undefined variable bills
exactly as the tariff without the broken component. -/
theorem eval_failure_skips_component_witness :
    calculate_bill
      (some (some ⟨[
        { id := some "supply", unit := Option.none, rate_schedule := [],
          applies_to := [], season := Option.none, loss_factor := Option.none,
          calculation := some (.const (.num 5)) },
        { id := some "broken", unit := Option.none, rate_schedule := [],
          applies_to := [], season := Option.none, loss_factor := Option.none,
          calculation := some (.name "undefined_var") }], []⟩))
      [] ⟨⟨2024, 1, 1⟩, 0, 0⟩ ⟨⟨2024, 1, 31⟩, 0, 0⟩ =
    calculate_bill
      (some (some ⟨[
        { id := some "supply", unit := Option.none, rate_schedule := [],
          applies_to := [], season := Option.none, loss_factor := Option.none,
          calculation := some (.const (.num 5)) }], []⟩))
      [] ⟨⟨2024, 1, 1⟩, 0, 0⟩ ⟨⟨2024, 1, 31⟩, 0, 0⟩ :=
  eval_failure_skips_component []
    [{ id := some "supply", unit := Option.none, rate_schedule := [],
       applies_to := [], season := Option.none, loss_factor := Option.none,
       calculation := some (.const (.num 5)) }] []
    { id := some "broken", unit := Option.none, rate_schedule := [],
      applies_to := [], season := Option.none, loss_factor := Option.none,
      calculation := some (.name "undefined_var") }
    [] ⟨⟨2024, 1, 1⟩, 0, 0⟩ ⟨⟨2024, 1, 31⟩, 0, 0⟩ (.name "undefined_var")
    "Use of name undefined_var not allowed" rfl rfl

/-- The unrounded cost of every non-skipped component, in document
order (with multiplicity: a repeated component id contributes each time,
exactly as the source's `total_cost +=` line). -/
def componentCosts (ctx : BillCtx) (comps : List Component) : List ℚ :=
  comps.filterMap (fun c => (processComponent ctx c).map (fun t => t.2.2))

lemma foldl_calcStep_total (ctx : BillCtx) :
    ∀ (comps : List Component) (st : List (String × BreakdownEntry) × ℚ),
      (comps.foldl (calcStep ctx) st).2 = st.2 + (componentCosts ctx comps).sum := by
  intro comps
  induction comps with
  | nil => intro st; simp [componentCosts]
  | cons c cs ih =>
    intro st
    simp only [List.foldl]
    cases hp : processComponent ctx c with
    | none =>
      rw [ih]
      simp [componentCosts, calcStep, hp]
    | some t =>
      rw [ih]
      simp [componentCosts, calcStep, hp]
      ring

unseal Rat.add Rat.mul Rat.inv Rat.sub in
/-- C10, theorem: the returned `total_cost` is the sum of the unrounded
per-component costs, rounded to 4 decimal places once at the end; and
since each breakdown entry's `cost` is rounded independently before
storage, `total_cost` can differ from the sum of the stored rounded
costs — witnessed by two components each costing 0.00006, whose stored
costs round to 0.0001 each (sum 0.0002) while the total rounds
0.00012 to 0.0001. -/
theorem total_cost_rounds_once :
    (∀ (cj : Canonical) (readings : List Reading) (start end_ : DateTime),
      (calculate_bill (some (some cj)) readings start end_).total_cost =
        round4 ((componentCosts (mkBillCtx cj readings start end_) cj.components).sum)) ∧
    (calculate_bill
        (some (some ⟨[
          { id := some "a_comp", unit := Option.none, rate_schedule := [],
            applies_to := [], season := Option.none, loss_factor := Option.none,
            calculation := some (.const (.num (3 / 50000))) },
          { id := some "b_comp", unit := Option.none, rate_schedule := [],
            applies_to := [], season := Option.none, loss_factor := Option.none,
            calculation := some (.const (.num (3 / 50000))) }], []⟩))
        [] ⟨⟨2024, 1, 1⟩, 0, 0⟩ ⟨⟨2024, 1, 31⟩, 0, 0⟩ |>.total_cost) ≠
      ((calculate_bill
        (some (some ⟨[
          { id := some "a_comp", unit := Option.none, rate_schedule := [],
            applies_to := [], season := Option.none, loss_factor := Option.none,
            calculation := some (.const (.num (3 / 50000))) },
          { id := some "b_comp", unit := Option.none, rate_schedule := [],
            applies_to := [], season := Option.none, loss_factor := Option.none,
            calculation := some (.const (.num (3 / 50000))) }], []⟩))
        [] ⟨⟨2024, 1, 1⟩, 0, 0⟩ ⟨⟨2024, 1, 31⟩, 0, 0⟩ |>.breakdown).map
          (fun p => p.2.cost)).sum := by
  constructor
  · intro cj readings start end_
    simp only [calculate_bill]
    rw [foldl_calcStep_total]
    simp
  · decide

/-- C8, theorem: the engine is deterministic. Both `compute_checksum` and
`calculate_bill` are functions of exactly the data the source reads — the
tariff version id and canonical JSON, the ordered reading rows, and the
period bounds — with no other state (the embedding takes all of it as
explicit arguments, mirroring the source's data flow); two runs on
pairwise identical inputs therefore produce an identical checksum stream
(hence an identical SHA-256 digest) and an identical `CalcResult` with the
same `total_cost`, `breakdown`, and `units`. -/
theorem engine_deterministic
    (tid1 tid2 : ℤ) (cr1 cr2 : Option String) (rows1 rows2 : List (String × String))
    (s1 s2 e1 e2 : String) (tv1 tv2 : Option (Option Canonical))
    (rd1 rd2 : List Reading) (ds1 ds2 de1 de2 : DateTime)
    (htid : tid1 = tid2) (hcr : cr1 = cr2) (hrows : rows1 = rows2)
    (hs : s1 = s2) (he : e1 = e2) (htv : tv1 = tv2) (hrd : rd1 = rd2)
    (hds : ds1 = ds2) (hde : de1 = de2) :
    compute_checksum tid1 cr1 rows1 s1 e1 = compute_checksum tid2 cr2 rows2 s2 e2 ∧
    calculate_bill tv1 rd1 ds1 de1 = calculate_bill tv2 rd2 ds2 de2 := by
  subst htid hcr hrows hs he htv hrd hds hde
  exact ⟨rfl, rfl⟩

/-- C8, witness: a second run on the same concrete tariff, readings and
period reproduces the checksum stream and the bill. -/
theorem engine_deterministic_witness :
    compute_checksum 7 (some "canonical") [("2024-01-01 00:00:00", "5.0")]
        "2024-01-01 00:00:00" "2024-02-01 00:00:00" =
      compute_checksum 7 (some "canonical") [("2024-01-01 00:00:00", "5.0")]
        "2024-01-01 00:00:00" "2024-02-01 00:00:00" ∧
    calculate_bill (some (some ⟨[], []⟩)) [⟨⟨⟨2024, 1, 1⟩, 0, 0⟩, 5⟩]
        ⟨⟨2024, 1, 1⟩, 0, 0⟩ ⟨⟨2024, 2, 1⟩, 0, 0⟩ =
      calculate_bill (some (some ⟨[], []⟩)) [⟨⟨⟨2024, 1, 1⟩, 0, 0⟩, 5⟩]
        ⟨⟨2024, 1, 1⟩, 0, 0⟩ ⟨⟨2024, 2, 1⟩, 0, 0⟩ :=
  engine_deterministic 7 7 (some "canonical") (some "canonical")
    [("2024-01-01 00:00:00", "5.0")] [("2024-01-01 00:00:00", "5.0")]
    "2024-01-01 00:00:00" "2024-01-01 00:00:00" "2024-02-01 00:00:00" "2024-02-01 00:00:00"
    (some (some ⟨[], []⟩)) (some (some ⟨[], []⟩))
    [⟨⟨⟨2024, 1, 1⟩, 0, 0⟩, 5⟩] [⟨⟨⟨2024, 1, 1⟩, 0, 0⟩, 5⟩]
    ⟨⟨2024, 1, 1⟩, 0, 0⟩ ⟨⟨2024, 1, 1⟩, 0, 0⟩ ⟨⟨2024, 2, 1⟩, 0, 0⟩ ⟨⟨2024, 2, 1⟩, 0, 0⟩
    rfl rfl rfl rfl rfl rfl rfl rfl rfl
